import Mathlib

/-!
Verification of `ramlfications/parameters.py` (RAML parameter, body, response and
security-scheme normalization and inheritance).

The file is a shallow embedding of the Python source.  Python's unityped values
are modelled by `PyVal`; Python `None` is `PyVal.none`.  The `attr.s` record
classes become Lean structures.  The fields `example`, `default` and `repeat`
of the Python classes are Lean keywords and are therefore spelled `example_`,
`default_` and `repeat_` here; every other name follows the source.  Python
exceptions (`AttributeError` from `iteritems`/`.get` on a non-mapping,
`IndexError` on an empty scheme entry) are modelled by `Option`: a function
that can raise returns `Option.none` exactly when the Python code raises.
The dynamic `getattr`/`setattr` access used by `_inherit_type_properties`
is modelled by the enumeration `AttrName` of the attribute names involved
together with `BaseParameter.getAttr` / `BaseParameter.setAttr`.
-/

/-- A decoded Python/YAML value.  `PyVal.none` is Python `None`; `dict` keeps
its key/value pairs in insertion order, as Python dicts do. -/
inductive PyVal where
  | none
  | bool (b : Bool)
  | int (n : Int)
  | str (s : String)
  | list (xs : List PyVal)
  | dict (xs : List (String × PyVal))

/-- Python `v is None`. -/
def PyVal.isNone : PyVal → Bool
  | PyVal.none => true
  | _ => false

/-- Python truthiness (`if v:`): `None`, `False`, `0`, `""` and empty
containers are falsy, everything else is truthy. -/
def PyVal.truthy : PyVal → Bool
  | PyVal.none => false
  | PyVal.bool b => b
  | PyVal.int n => n != 0
  | PyVal.str s => s != ""
  | PyVal.list xs => !xs.isEmpty
  | PyVal.dict xs => !xs.isEmpty

/-- Python `d[k]` lookup on a dict's entry list (keys of a Python dict are
unique, so the first hit is the value). -/
def pyFind (xs : List (String × PyVal)) (k : String) : Option PyVal :=
  (xs.find? (fun kv => kv.1 == k)).map (fun kv => kv.2)

/-- Python `k in d` for a `PyVal` that may or may not be a dict. -/
def hasKey : PyVal → String → Bool
  | PyVal.dict xs, k => (pyFind xs k).isSome
  | _, _ => false

/-- View a `PyVal` as a mapping.  `Option.none` where Python would raise
(`iteritems`/`.get` on a non-mapping). -/
def asDict : PyVal → Option (List (String × PyVal))
  | PyVal.dict xs => some xs
  | _ => Option.none

/-- View a `PyVal` as a Python list (`assert isinstance(scheme_data, list)`
fails otherwise). -/
def asList : PyVal → Option (List PyVal)
  | PyVal.list xs => some xs
  | _ => Option.none

/-- The attribute names the inheritance merge manipulates through
`getattr`/`setattr`: the `NAMED_PARAMS` list of the source plus `method`
(which `Header._inherit_type_properties` adds). -/
inductive AttrName where
  | desc
  | type
  | enum
  | pattern
  | minimum
  | maximum
  | example_
  | default_
  | required
  | repeat_
  | display_name
  | max_length
  | min_length
  | method
deriving DecidableEq

/-- `NAMED_PARAMS` from the source (module-level constant, lines 21-25). -/
def NAMED_PARAMS : List AttrName :=
  [AttrName.desc, AttrName.type, AttrName.enum, AttrName.pattern, AttrName.minimum,
   AttrName.maximum, AttrName.example_, AttrName.default_, AttrName.required,
   AttrName.repeat_, AttrName.display_name, AttrName.max_length, AttrName.min_length]

/-- The concrete `BaseParameter` subclasses; `BaseParameter.init` branches on
`cls` (`cls is URIParameter`, `cls is Header`). -/
inductive ParamKind where
  | URIParameter
  | QueryParameter
  | FormParameter
  | Header
deriving DecidableEq

/-- The `attr.s` record underlying `BaseParameter` and its subclasses
(`URIParameter`, `QueryParameter`, `FormParameter`, `Header`).  The subclasses
only add the `required`/`type` (and, for `Header`, `method`) attributes, so a
single structure covers all of them; on a non-`Header` instance Python's
`getattr(obj, "method", None)` yields `None`, which the `method` field set to
`PyVal.none` reproduces. -/
structure BaseParameter where
  name : String
  raw : PyVal
  desc : PyVal
  display_name : PyVal
  min_length : PyVal
  max_length : PyVal
  minimum : PyVal
  maximum : PyVal
  example_ : PyVal
  default_ : PyVal
  config : PyVal
  errors : List PyVal
  repeat_ : PyVal
  pattern : PyVal
  enum : PyVal
  required : PyVal
  type : PyVal
  method : PyVal

/-- `getattr(p, n, None)` for the attribute names of `AttrName`. -/
def BaseParameter.getAttr (p : BaseParameter) : AttrName → PyVal
  | AttrName.desc => p.desc
  | AttrName.type => p.type
  | AttrName.enum => p.enum
  | AttrName.pattern => p.pattern
  | AttrName.minimum => p.minimum
  | AttrName.maximum => p.maximum
  | AttrName.example_ => p.example_
  | AttrName.default_ => p.default_
  | AttrName.required => p.required
  | AttrName.repeat_ => p.repeat_
  | AttrName.display_name => p.display_name
  | AttrName.max_length => p.max_length
  | AttrName.min_length => p.min_length
  | AttrName.method => p.method

/-- `setattr(p, n, v)` for the attribute names of `AttrName`. -/
def BaseParameter.setAttr (p : BaseParameter) : AttrName → PyVal → BaseParameter
  | AttrName.desc, v => { p with desc := v }
  | AttrName.type, v => { p with type := v }
  | AttrName.enum, v => { p with enum := v }
  | AttrName.pattern, v => { p with pattern := v }
  | AttrName.minimum, v => { p with minimum := v }
  | AttrName.maximum, v => { p with maximum := v }
  | AttrName.example_, v => { p with example_ := v }
  | AttrName.default_, v => { p with default_ := v }
  | AttrName.required, v => { p with required := v }
  | AttrName.repeat_, v => { p with repeat_ := v }
  | AttrName.display_name, v => { p with display_name := v }
  | AttrName.max_length, v => { p with max_length := v }
  | AttrName.min_length, v => { p with min_length := v }
  | AttrName.method, v => { p with method := v }

/-- `Content` (source lines 28-53); `html` rendering is an external
collaborator (`markdown2`) and is not modelled. -/
structure Content where
  data : PyVal

/-- `Content.raw`: the untouched text. -/
def Content.raw (c : Content) : PyVal := c.data

/-- `BaseParameter.description` (lines 108-112): `Content(desc)` when `desc`
is truthy, Python `None` otherwise.  `Header.description` (lines 283-287) is
a textually identical redefinition and is covered by this same function. -/
def BaseParameter.description (p : BaseParameter) : Option Content :=
  if PyVal.truthy p.desc then some { data := p.desc } else Option.none

/-- The inner loop shared by the `_inherit_type_properties` methods:
for each attribute name in `l` (in order), if `self`'s value `is None`,
take the ancestor `p`'s value for it (which may itself be `None`).
Parametrised over the record type and its `getattr`/`setattr` so that the
`BaseParameter` and `Body` variants share one definition. -/
def fillAttrs {σ α : Type} (get : σ → α → PyVal) (set : σ → α → PyVal → σ)
    (p : σ) : σ → List α → σ
  | s, [] => s
  | s, n :: ns =>
    if (get s n).isNone then fillAttrs get set p (set s n (get p n)) ns
    else fillAttrs get set p s ns

/-- `BaseParameter._inherit_type_properties` (lines 114-122): scan the
ancestor list in order; for each ancestor whose `name` equals `self.name`
fill every still-unset `NAMED_PARAMS` attribute from it.  (The source reads
the ancestor's identity via `getattr(param, "name", getattr(param, "code",
None))`; ancestors here are named-parameter records, which always carry
`name`.) -/
def BaseParameter.inheritTypeProperties (s : BaseParameter) :
    List BaseParameter → BaseParameter
  | [] => s
  | p :: ps =>
    if p.name = s.name then
      BaseParameter.inheritTypeProperties
        (fillAttrs BaseParameter.getAttr BaseParameter.setAttr p s NAMED_PARAMS) ps
    else BaseParameter.inheritTypeProperties s ps

/-- `Header._inherit_type_properties` (lines 289-296): no identity filter at
all — every ancestor in the list is consulted — and the attribute list is
`NAMED_PARAMS + ["method"]`. -/
def Header.inheritTypeProperties (s : BaseParameter) :
    List BaseParameter → BaseParameter
  | [] => s
  | p :: ps =>
    Header.inheritTypeProperties
      (fillAttrs BaseParameter.getAttr BaseParameter.setAttr p s
        (NAMED_PARAMS ++ [AttrName.method])) ps

/-- Specification-side description of the named-parameter merge result: the
value of attribute `n` in the first ancestor whose `name` equals `nm` and
whose value for `n` is not `None`; `PyVal.none` if there is no such
ancestor. -/
def firstSetNamed (nm : String) (n : AttrName) : List BaseParameter → PyVal
  | [] => PyVal.none
  | p :: ps =>
    if p.name = nm ∧ (p.getAttr n).isNone = false then p.getAttr n
    else firstSetNamed nm n ps

/-- Specification-side description of the header merge result: the value of
attribute `n` in the first ancestor (any name) whose value for `n` is not
`None`. -/
def firstSet (n : AttrName) : List BaseParameter → PyVal
  | [] => PyVal.none
  | p :: ps =>
    if (p.getAttr n).isNone = false then p.getAttr n
    else firstSet n ps

/-- `BaseParameter._get` (lines 124-139): `data.get(item, default)` with the
`AttributeError` raised by a non-mapping `data` (for instance `None`) caught
and turned into `default`. -/
def BaseParameter._get (data : PyVal) (item : String) (default : PyVal) : PyVal :=
  match data with
  | PyVal.dict xs => (pyFind xs item).getD default
  | _ => default

/-- `BaseParameter.init` (lines 141-168).  `required` defaults to `True`
exactly when `cls is URIParameter`; `method` is read from the keyword
arguments exactly when `cls is Header` (other classes have no `method`
attribute, observed through `getattr` as `None`). -/
def BaseParameter.init (cls : ParamKind) (name : String) (data : PyVal)
    (config : PyVal) (errors : List PyVal) (kwargs : PyVal) : BaseParameter :=
  { name := name
    raw := PyVal.dict [(name, data)]
    desc := BaseParameter._get data "description" PyVal.none
    display_name := BaseParameter._get data "displayName" (PyVal.str name)
    min_length := BaseParameter._get data "minLength" PyVal.none
    max_length := BaseParameter._get data "maxLength" PyVal.none
    minimum := BaseParameter._get data "minimum" PyVal.none
    maximum := BaseParameter._get data "maximum" PyVal.none
    default_ := BaseParameter._get data "default" PyVal.none
    enum := BaseParameter._get data "enum" PyVal.none
    example_ := BaseParameter._get data "example" PyVal.none
    required :=
      if cls = ParamKind.URIParameter then
        BaseParameter._get data "required" (PyVal.bool true)
      else BaseParameter._get data "required" (PyVal.bool false)
    repeat_ := BaseParameter._get data "repeat" (PyVal.bool false)
    pattern := BaseParameter._get data "pattern" PyVal.none
    type := BaseParameter._get data "type" (PyVal.str "string")
    config := config
    errors := errors
    method :=
      if cls = ParamKind.Header then BaseParameter._get kwargs "method" PyVal.none
      else PyVal.none }

/-- `BaseParameter.init_list` (lines 170-178): one `init` per mapping entry,
in insertion order; `objects or None` maps the empty list to Python `None`
(modelled by `Option.none`). -/
def BaseParameter.init_list (cls : ParamKind) (data : List (String × PyVal))
    (config : PyVal) (errors : List PyVal) (kwargs : PyVal) :
    Option (List BaseParameter) :=
  let objects := data.map (fun kv => BaseParameter.init cls kv.1 kv.2 config errors kwargs)
  if objects.isEmpty then Option.none else some objects

/-- The `Body` record (lines 299-326). -/
structure Body where
  mime_type : String
  raw : PyVal
  schema : PyVal
  example_ : PyVal
  form_params : PyVal
  config : PyVal
  errors : List PyVal

/-- The attribute names touched by `Body._inherit_type_properties`
(`body_params = ["schema", "example", "form_params"]`, line 329). -/
inductive BodyAttr where
  | schema
  | example_
  | form_params
deriving DecidableEq

/-- `body_params` of `Body._inherit_type_properties`. -/
def BODY_PARAMS : List BodyAttr := [BodyAttr.schema, BodyAttr.example_, BodyAttr.form_params]

/-- `getattr` on a `Body` for the `body_params` attribute names. -/
def Body.getAttr (b : Body) : BodyAttr → PyVal
  | BodyAttr.schema => b.schema
  | BodyAttr.example_ => b.example_
  | BodyAttr.form_params => b.form_params

/-- `setattr` on a `Body` for the `body_params` attribute names. -/
def Body.setAttr (b : Body) : BodyAttr → PyVal → Body
  | BodyAttr.schema, v => { b with schema := v }
  | BodyAttr.example_, v => { b with example_ := v }
  | BodyAttr.form_params, v => { b with form_params := v }

/-- `Body._inherit_type_properties` (lines 328-337): skip ancestors whose
`mime_type` differs from `self.mime_type` (`continue`), otherwise fill the
still-unset attributes among `schema`, `example`, `form_params`. -/
def Body.inheritTypeProperties (s : Body) : List Body → Body
  | [] => s
  | p :: ps =>
    if p.mime_type ≠ s.mime_type then Body.inheritTypeProperties s ps
    else Body.inheritTypeProperties (fillAttrs Body.getAttr Body.setAttr p s BODY_PARAMS) ps

/-- Specification-side description of the body merge result: the value of
attribute `n` in the first ancestor whose `mime_type` equals `mt` and whose
value for `n` is not `None`. -/
def firstSetBody (mt : String) (n : BodyAttr) : List Body → PyVal
  | [] => PyVal.none
  | p :: ps =>
    if p.mime_type = mt ∧ (p.getAttr n).isNone = false then p.getAttr n
    else firstSetBody mt n ps

/-- Modelled from the spec: `load_schema` lives in `ramlfications/utils.py`,
which is not part of this repository snapshot.  Per the spec it resolves a
schema reference to its content, "or the original string if unresolved";
resolution is external file I/O, so the model keeps the value unchanged.
No claim in this development depends on its behaviour. -/
def load_schema (v : PyVal) : PyVal := v

/-- `Body.init` (lines 339-351): the mapping key is the MIME type, `raw` is
the declaration itself, `schema`/`example` go through `load_schema`. -/
def Body.init (name : String) (data : PyVal) (config : PyVal)
    (errors : List PyVal) : Body :=
  { mime_type := name
    raw := data
    schema := load_schema (BaseParameter._get data "schema" PyVal.none)
    example_ := load_schema (BaseParameter._get data "example" PyVal.none)
    form_params := BaseParameter._get data "formParameters" PyVal.none
    config := config
    errors := errors }

/-- `Body.init_list` (lines 353-360): unlike `BaseParameter.init_list` there
is no `or None` — the (possibly empty) list itself is returned. -/
def Body.init_list (data : List (String × PyVal)) (config : PyVal)
    (errors : List PyVal) : List Body :=
  data.map (fun kv => Body.init kv.1 kv.2 config errors)

/-- The `Response` record (lines 363-384).  `headers` is the result of
`Header.init_list` (Python `None` or a list); `body` is the result of
`Body.init_list` (always a list). -/
structure Response where
  code : String
  raw : PyVal
  desc : PyVal
  headers : Option (List BaseParameter)
  body : List Body
  config : PyVal
  errors : List PyVal
  method : PyVal

/-- `Response.description` (lines 386-390), identical to
`BaseParameter.description`. -/
def Response.description (r : Response) : Option Content :=
  if PyVal.truthy r.desc then some { data := r.desc } else Option.none

/-- `Response.init` (lines 400-411).  `data` must be a mapping
(`data.get(...)` raises otherwise — modelled by `Option.none`), and the
nested `Header.init_list`/`Body.init_list` calls receive `config` but NOT
`errors`, so they run with the default empty errors collection. -/
def Response.init (name : String) (data : PyVal) (config : PyVal)
    (errors : List PyVal) : Option Response :=
  match asDict data with
  | Option.none => Option.none
  | some d =>
    match asDict ((pyFind d "headers").getD (PyVal.dict [])),
          asDict ((pyFind d "body").getD (PyVal.dict [])) with
    | some hs, some bs =>
      some
        { code := name
          raw := data
          desc := (pyFind d "description").getD PyVal.none
          headers := BaseParameter.init_list ParamKind.Header hs config [] PyVal.none
          body := Body.init_list bs config []
          config := config
          errors := errors
          method := PyVal.none }
    | _, _ => Option.none

/-- The loop body of `Response.init_list` (lines 415-417): normalize each
entry in declaration order, propagating an exception from `Response.init`. -/
def Response.initAll (config : PyVal) (errors : List PyVal) :
    List (String × PyVal) → Option (List Response)
  | [] => some []
  | kv :: rest =>
    match Response.init kv.1 kv.2 config errors, Response.initAll config errors rest with
    | some r, some rs => some (r :: rs)
    | _, _ => Option.none

/-- Lexicographic comparison of char lists by code point — Python's `<` on
strings, written out so that it evaluates inside the kernel. -/
def charListLt : List Char → List Char → Bool
  | _, [] => false
  | [], _ :: _ => true
  | c :: cs, d :: ds =>
    if c.toNat < d.toNat then true
    else if d.toNat < c.toNat then false
    else charListLt cs ds

/-- Python `a < b` on strings. -/
def pyStrLt (a b : String) : Bool := charListLt a.data b.data

/-- Python `a <= b` on strings (for stating sortedness). -/
def pyStrLe (a b : String) : Prop := pyStrLt b a = false

/-- Stable insertion of `a` into an already-sorted list: walk past every
element strictly below `a`'s code and insert before the first that is not.
This places `a` before later-declared responses with an equal code, exactly
as CPython's stable `sorted` does. -/
def orderedInsertResp (a : Response) : List Response → List Response
  | [] => [a]
  | b :: l =>
    if pyStrLt b.code a.code then b :: orderedInsertResp a l
    else a :: b :: l

/-- `sorted(responses, key=lambda x: x.code)` (line 418): CPython's `sorted`
is the unique stable ascending sort, which this insertion sort implements. -/
def pySortedResp : List Response → List Response
  | [] => []
  | a :: l => orderedInsertResp a (pySortedResp l)

/-- `Response.init_list` (lines 413-418): normalize every entry, then return
the list re-sorted ascending by status code.  The `Option` only models a
propagated exception; the Python function never returns `None`. -/
def Response.init_list (data : List (String × PyVal)) (config : PyVal)
    (errors : List PyVal) : Option (List Response) :=
  (Response.initAll config errors data).map pySortedResp

/-- `Documentation` (lines 217-237). -/
structure Documentation where
  _title : PyVal
  _content : PyVal

/-- The `SecurityScheme` record (lines 421-443) together with the attributes
`from_file` attaches dynamically with `setattr`; an outer `Option.none` on an
attachment field means the attribute was never attached. -/
structure SecurityScheme where
  name : String
  raw : PyVal
  type : PyVal
  described_by : PyVal
  desc : PyVal
  settings : PyVal
  config : PyVal
  errors : List PyVal
  headers : Option (Option (List BaseParameter))
  body : Option (List Body)
  responses : Option (List Response)
  query_params : Option (Option (List BaseParameter))
  uri_params : Option (Option (List BaseParameter))
  form_params : Option (Option (List BaseParameter))
  documentation : Option (Option (List Documentation))
  usage : Option PyVal
  media_type : Option PyVal
  protocols : Option PyVal

/-- `SecurityScheme.description` (lines 445-449), identical to
`BaseParameter.description`. -/
def SecurityScheme.description (s : SecurityScheme) : Option Content :=
  if PyVal.truthy s.desc then some { data := s.desc } else Option.none

/-- The `documentation` branch of `from_file` (line 503): each entry must
answer `.get` (a mapping); a non-mapping entry raises. -/
def docsOf : List PyVal → Option (List Documentation)
  | [] => some []
  | PyVal.dict xs :: rest =>
    (docsOf rest).map
      (fun ds => { _title := (pyFind xs "title").getD PyVal.none,
                   _content := (pyFind xs "content").getD PyVal.none } :: ds)
  | _ => Option.none

/-- One step of the `described_by` dispatch loop of `from_file`
(lines 493-505).  Every `init_list` call passes `root.config` only — the
`errors` argument is left at its default `[]`.  Unknown keys are ignored. -/
def dispatchDescribedBy (root_config : PyVal) (s : SecurityScheme)
    (obj : String) (scheme_data : PyVal) : Option SecurityScheme :=
  if obj = "headers" then
    (asDict scheme_data).map (fun ds =>
      { s with
          headers := some (BaseParameter.init_list ParamKind.Header ds root_config [] PyVal.none) })
  else if obj = "body" then
    (asDict scheme_data).map (fun ds =>
      { s with body := some (Body.init_list ds root_config []) })
  else if obj = "responses" then
    (asDict scheme_data).bind (fun ds =>
      (Response.init_list ds root_config []).map (fun rs => { s with responses := some rs }))
  else if obj = "queryParameters" then
    (asDict scheme_data).map (fun ds =>
      { s with
          query_params := some (BaseParameter.init_list ParamKind.QueryParameter ds root_config [] PyVal.none) })
  else if obj = "uriParameters" then
    (asDict scheme_data).map (fun ds =>
      { s with
          uri_params := some (BaseParameter.init_list ParamKind.URIParameter ds root_config [] PyVal.none) })
  else if obj = "formParameters" then
    (asDict scheme_data).map (fun ds =>
      { s with
          form_params := some (BaseParameter.init_list ParamKind.FormParameter ds root_config [] PyVal.none) })
  else if obj = "documentation" then
    (asList scheme_data).bind (fun items =>
      (docsOf items).map (fun docs =>
        { s with documentation := some (if docs.isEmpty then Option.none else some docs) }))
  else if obj = "usage" then some { s with usage := some scheme_data }
  else if obj = "mediaType" then some { s with media_type := some scheme_data }
  else if obj = "protocols" then some { s with protocols := some scheme_data }
  else some s

/-- The `described_by` dispatch loop of `from_file`, entry by entry. -/
def foldDispatch (root_config : PyVal) :
    SecurityScheme → List (String × PyVal) → Option SecurityScheme
  | s, [] => some s
  | s, (obj, sd) :: rest =>
    (dispatchDescribedBy root_config s obj sd).bind
      (fun s2 => foldDispatch root_config s2 rest)

/-- One iteration of the scheme loop of `from_file` (lines 479-506): the
scheme entry is a single-key mapping `{name: data}`; the base record stores
`root.config` and `root.errors`, then the `describedBy` entries are
dispatched. -/
def SecurityScheme.fromScheme (root_config : PyVal) (root_errors : List PyVal)
    (s : PyVal) : Option SecurityScheme :=
  match s with
  | PyVal.dict ((name, data) :: _) =>
    (asDict data).bind (fun d =>
      let base : SecurityScheme :=
        { name := name
          raw := data
          type := (pyFind d "type").getD PyVal.none
          described_by := (pyFind d "describedBy").getD (PyVal.dict [])
          desc := (pyFind d "description").getD PyVal.none
          settings := (pyFind d "settings").getD PyVal.none
          config := root_config
          errors := root_errors
          headers := Option.none
          body := Option.none
          responses := Option.none
          query_params := Option.none
          uri_params := Option.none
          form_params := Option.none
          documentation := Option.none
          usage := Option.none
          media_type := Option.none
          protocols := Option.none }
      (asDict base.described_by).bind (fun entries => foldDispatch root_config base entries))
  | _ => Option.none

/-- The scheme loop of `from_file`, in order. -/
def schemesOf (root_config : PyVal) (root_errors : List PyVal) :
    List PyVal → Option (List SecurityScheme)
  | [] => some []
  | s :: rest =>
    match SecurityScheme.fromScheme root_config root_errors s,
          schemesOf root_config root_errors rest with
    | some o, some os => some (o :: os)
    | _, _ => Option.none

/-- `SecurityScheme.from_file` (lines 451-507).  The outer `Option` models a
raised exception; the inner one is the `scheme_objs or None` result.  A
non-list `securitySchemes` value is outside the modelled domain (Python
would iterate it and raise shortly after) and maps to the exception case. -/
def SecurityScheme.from_file (raml : List (String × PyVal)) (root_config : PyVal)
    (root_errors : List PyVal) : Option (Option (List SecurityScheme)) :=
  match (pyFind raml "securitySchemes").getD (PyVal.list []) with
  | PyVal.list ss =>
    (schemesOf root_config root_errors ss).map
      (fun objs => if objs.isEmpty then Option.none else some objs)
  | _ => Option.none

/-- Every parameter/body/response record reachable from a scheme's attached
collections carries an empty errors collection (the `init_list` default),
rather than the root's. -/
def noErrorsIn (s : SecurityScheme) : Prop :=
  (∀ q ∈ (s.headers.getD Option.none).getD [], q.errors = ([] : List PyVal)) ∧
  (∀ b ∈ s.body.getD [], b.errors = ([] : List PyVal)) ∧
  (∀ r ∈ s.responses.getD [], r.errors = ([] : List PyVal)) ∧
  (∀ q ∈ (s.query_params.getD Option.none).getD [], q.errors = ([] : List PyVal)) ∧
  (∀ q ∈ (s.uri_params.getD Option.none).getD [], q.errors = ([] : List PyVal)) ∧
  (∀ q ∈ (s.form_params.getD Option.none).getD [], q.errors = ([] : List PyVal))

/-- A blank parameter record with every inheritable attribute unset — base
material for the concrete witnesses. -/
def mkParam (nm : String) : BaseParameter :=
  { name := nm
    raw := PyVal.dict []
    desc := PyVal.none
    display_name := PyVal.none
    min_length := PyVal.none
    max_length := PyVal.none
    minimum := PyVal.none
    maximum := PyVal.none
    example_ := PyVal.none
    default_ := PyVal.none
    config := PyVal.dict []
    errors := []
    repeat_ := PyVal.none
    pattern := PyVal.none
    enum := PyVal.none
    required := PyVal.none
    type := PyVal.none
    method := PyVal.none }

/-- A blank body record with the three inheritable attributes unset. -/
def mkBody (mt : String) : Body :=
  { mime_type := mt
    raw := PyVal.dict []
    schema := PyVal.none
    example_ := PyVal.none
    form_params := PyVal.none
    config := PyVal.dict []
    errors := [] }

/-- A concrete document fragment declaring one security scheme with a header
in its `describedBy` clause, used by the witnesses. -/
def sampleRaml : List (String × PyVal) :=
  [("securitySchemes", PyVal.list [PyVal.dict [("oauth",
    PyVal.dict [("describedBy", PyVal.dict [("headers", PyVal.dict [("X-t", PyVal.none)])])])]])]

/-- Fallback record for reading a concrete `Response.init` result with
`Option.getD` in the witnesses. -/
def dummyResponse : Response :=
  { code := ""
    raw := PyVal.dict []
    desc := PyVal.none
    headers := Option.none
    body := []
    config := PyVal.dict []
    errors := []
    method := PyVal.none }

/-! Helper lemmas.  First the `getattr`/`setattr` laws, then the behaviour of
the shared inner loop `fillAttrs`, then one characterization per merge
function. -/

theorem BaseParameter.getAttr_setAttr (p : BaseParameter) (n m : AttrName) (v : PyVal) :
    (p.setAttr n v).getAttr m = if n = m then v else p.getAttr m := by
  cases n <;> cases m <;> simp [BaseParameter.getAttr, BaseParameter.setAttr]

theorem BaseParameter.setAttr_name (p : BaseParameter) (n : AttrName) (v : PyVal) :
    (p.setAttr n v).name = p.name := by
  cases n <;> rfl

theorem bodyGetAttr_setAttr (b : Body) (n m : BodyAttr) (v : PyVal) :
    (b.setAttr n v).getAttr m = if n = m then v else b.getAttr m := by
  cases n <;> cases m <;> simp [Body.getAttr, Body.setAttr]

theorem Body.setAttr_mime_type (b : Body) (n : BodyAttr) (v : PyVal) :
    (b.setAttr n v).mime_type = b.mime_type := by
  cases n <;> rfl

theorem Body.setAttr_raw (b : Body) (n : BodyAttr) (v : PyVal) :
    (b.setAttr n v).raw = b.raw := by
  cases n <;> rfl

theorem Body.setAttr_config (b : Body) (n : BodyAttr) (v : PyVal) :
    (b.setAttr n v).config = b.config := by
  cases n <;> rfl

theorem Body.setAttr_errors (b : Body) (n : BodyAttr) (v : PyVal) :
    (b.setAttr n v).errors = b.errors := by
  cases n <;> rfl

theorem fillAttrs_frame {σ α β : Type} (get : σ → α → PyVal) (set : σ → α → PyVal → σ)
    (f : σ → β) (hf : ∀ s n v, f (set s n v) = f s) (p : σ) :
    ∀ (l : List α) (s : σ), f (fillAttrs get set p s l) = f s := by
  intro l
  induction l with
  | nil => intro s; rfl
  | cons m ms ih =>
    intro s
    simp only [fillAttrs]
    by_cases hc : (get s m).isNone = true
    · rw [if_pos hc, ih, hf]
    · rw [if_neg hc, ih]

theorem fillAttrs_get_of_not_isNone {σ α : Type} [DecidableEq α]
    (get : σ → α → PyVal) (set : σ → α → PyVal → σ)
    (hgs : ∀ s n m v, get (set s n v) m = if n = m then v else get s m) (p : σ) :
    ∀ (l : List α) (s : σ) (n : α), (get s n).isNone = false →
      get (fillAttrs get set p s l) n = get s n := by
  intro l
  induction l with
  | nil => intro s n _; rfl
  | cons m ms ih =>
    intro s n h
    simp only [fillAttrs]
    by_cases hc : (get s m).isNone = true
    · rw [if_pos hc]
      by_cases hmn : m = n
      · subst hmn; rw [h] at hc; cases hc
      · have hset : get (set s m (get p m)) n = get s n := by
          rw [hgs, if_neg hmn]
        rw [ih _ n (by rw [hset]; exact h), hset]
    · rw [if_neg hc, ih _ n h]

theorem fillAttrs_get_of_not_mem {σ α : Type} [DecidableEq α]
    (get : σ → α → PyVal) (set : σ → α → PyVal → σ)
    (hgs : ∀ s n m v, get (set s n v) m = if n = m then v else get s m) (p : σ) :
    ∀ (l : List α) (s : σ) (n : α), n ∉ l →
      get (fillAttrs get set p s l) n = get s n := by
  intro l
  induction l with
  | nil => intro s n _; rfl
  | cons m ms ih =>
    intro s n h
    have hmn : m ≠ n := fun e => h (e ▸ List.mem_cons_self m ms)
    have hms : n ∉ ms := fun e => h (List.mem_cons_of_mem m e)
    simp only [fillAttrs]
    by_cases hc : (get s m).isNone = true
    · rw [if_pos hc, ih _ n hms, hgs, if_neg hmn]
    · rw [if_neg hc, ih _ n hms]

theorem fillAttrs_get_of_mem {σ α : Type} [DecidableEq α]
    (get : σ → α → PyVal) (set : σ → α → PyVal → σ)
    (hgs : ∀ s n m v, get (set s n v) m = if n = m then v else get s m) (p : σ) :
    ∀ (l : List α) (s : σ) (n : α), n ∈ l → (get s n).isNone = true →
      get (fillAttrs get set p s l) n = get p n := by
  intro l
  induction l with
  | nil => intro s n h; cases h
  | cons m ms ih =>
    intro s n hmem h
    simp only [fillAttrs]
    by_cases hmn : m = n
    · subst hmn
      rw [if_pos h]
      have hset : get (set s m (get p m)) m = get p m := by
        rw [hgs, if_pos rfl]
      by_cases hp : (get p m).isNone = true
      · by_cases hn : m ∈ ms
        · exact ih _ m hn (by rw [hset]; exact hp)
        · rw [fillAttrs_get_of_not_mem get set hgs p ms _ m hn, hset]
      · rw [fillAttrs_get_of_not_isNone get set hgs p ms _ m
            (by rw [hset]; exact Bool.eq_false_iff.mpr hp), hset]
    · have hn : n ∈ ms := by
        rcases List.mem_cons.mp hmem with h1 | h1
        · exact absurd h1.symm hmn
        · exact h1
      by_cases hc : (get s m).isNone = true
      · rw [if_pos hc]
        exact ih _ n hn (by rw [hgs, if_neg hmn]; exact h)
      · rw [if_neg hc]
        exact ih _ n hn h

theorem PyVal.eq_none_of_isNone : ∀ v : PyVal, v.isNone = true → v = PyVal.none := by
  intro v h
  cases v <;> simp [PyVal.isNone] at h ⊢

theorem inheritTypeProperties_name (ps : List BaseParameter) :
    ∀ s : BaseParameter, (s.inheritTypeProperties ps).name = s.name := by
  induction ps with
  | nil => intro s; rfl
  | cons p rest ih =>
    intro s
    simp only [BaseParameter.inheritTypeProperties]
    by_cases hp : p.name = s.name
    · rw [if_pos hp, ih,
        fillAttrs_frame BaseParameter.getAttr BaseParameter.setAttr BaseParameter.name
          BaseParameter.setAttr_name]
    · rw [if_neg hp, ih]

theorem inheritTypeProperties_get_of_not_isNone (ps : List BaseParameter) :
    ∀ (s : BaseParameter) (n : AttrName), (s.getAttr n).isNone = false →
      (s.inheritTypeProperties ps).getAttr n = s.getAttr n := by
  induction ps with
  | nil => intro s n _; rfl
  | cons p rest ih =>
    intro s n h
    simp only [BaseParameter.inheritTypeProperties]
    by_cases hp : p.name = s.name
    · rw [if_pos hp]
      have hfill := fillAttrs_get_of_not_isNone BaseParameter.getAttr BaseParameter.setAttr
        BaseParameter.getAttr_setAttr p NAMED_PARAMS s n h
      rw [ih _ n (by rw [hfill]; exact h), hfill]
    · rw [if_neg hp, ih _ n h]

theorem inheritTypeProperties_get_of_isNone (ps : List BaseParameter) :
    ∀ (s : BaseParameter) (n : AttrName), n ∈ NAMED_PARAMS → (s.getAttr n).isNone = true →
      (s.inheritTypeProperties ps).getAttr n = firstSetNamed s.name n ps := by
  induction ps with
  | nil =>
    intro s n _ h
    simp only [BaseParameter.inheritTypeProperties, firstSetNamed]
    exact PyVal.eq_none_of_isNone _ h
  | cons p rest ih =>
    intro s n hmem h
    simp only [BaseParameter.inheritTypeProperties, firstSetNamed]
    by_cases hp : p.name = s.name
    · rw [if_pos hp]
      have hfill := fillAttrs_get_of_mem BaseParameter.getAttr BaseParameter.setAttr
        BaseParameter.getAttr_setAttr p NAMED_PARAMS s n hmem h
      by_cases hv : (p.getAttr n).isNone = false
      · rw [if_pos ⟨hp, hv⟩]
        rw [inheritTypeProperties_get_of_not_isNone rest _ n (by rw [hfill]; exact hv), hfill]
      · have hv' : (p.getAttr n).isNone = true := eq_true_of_ne_false hv
        rw [if_neg (fun hand => hv hand.2)]
        rw [ih _ n hmem (by rw [hfill]; exact hv')]
        rw [fillAttrs_frame BaseParameter.getAttr BaseParameter.setAttr BaseParameter.name
            BaseParameter.setAttr_name]

    · rw [if_neg hp, ih _ n hmem h]
      rw [if_neg (fun hand => hp hand.1)]

theorem headerInherit_get_of_not_isNone (ps : List BaseParameter) :
    ∀ (s : BaseParameter) (n : AttrName), (s.getAttr n).isNone = false →
      (Header.inheritTypeProperties s ps).getAttr n = s.getAttr n := by
  induction ps with
  | nil => intro s n _; rfl
  | cons p rest ih =>
    intro s n h
    simp only [Header.inheritTypeProperties]
    have hfill := fillAttrs_get_of_not_isNone BaseParameter.getAttr BaseParameter.setAttr
      BaseParameter.getAttr_setAttr p (NAMED_PARAMS ++ [AttrName.method]) s n h
    rw [ih _ n (by rw [hfill]; exact h), hfill]

theorem headerInherit_get_of_isNone (ps : List BaseParameter) :
    ∀ (s : BaseParameter) (n : AttrName), n ∈ NAMED_PARAMS ++ [AttrName.method] →
      (s.getAttr n).isNone = true →
      (Header.inheritTypeProperties s ps).getAttr n = firstSet n ps := by
  induction ps with
  | nil =>
    intro s n _ h
    simp only [Header.inheritTypeProperties, firstSet]
    exact PyVal.eq_none_of_isNone _ h
  | cons p rest ih =>
    intro s n hmem h
    simp only [Header.inheritTypeProperties, firstSet]
    have hfill := fillAttrs_get_of_mem BaseParameter.getAttr BaseParameter.setAttr
      BaseParameter.getAttr_setAttr p (NAMED_PARAMS ++ [AttrName.method]) s n hmem h
    by_cases hv : (p.getAttr n).isNone = false
    · rw [if_pos hv]
      rw [headerInherit_get_of_not_isNone rest _ n (by rw [hfill]; exact hv), hfill]
    · have hv' : (p.getAttr n).isNone = true := eq_true_of_ne_false hv
      rw [if_neg hv]
      exact ih _ n hmem (by rw [hfill]; exact hv')

theorem bodyInherit_mime_type (ps : List Body) :
    ∀ s : Body, (s.inheritTypeProperties ps).mime_type = s.mime_type := by
  induction ps with
  | nil => intro s; rfl
  | cons p rest ih =>
    intro s
    simp only [Body.inheritTypeProperties]
    by_cases hp : p.mime_type ≠ s.mime_type
    · rw [if_pos hp, ih]
    · rw [if_neg hp, ih,
        fillAttrs_frame Body.getAttr Body.setAttr Body.mime_type Body.setAttr_mime_type]

theorem bodyInherit_raw (ps : List Body) :
    ∀ s : Body, (s.inheritTypeProperties ps).raw = s.raw := by
  induction ps with
  | nil => intro s; rfl
  | cons p rest ih =>
    intro s
    simp only [Body.inheritTypeProperties]
    by_cases hp : p.mime_type ≠ s.mime_type
    · rw [if_pos hp, ih]
    · rw [if_neg hp, ih,
        fillAttrs_frame Body.getAttr Body.setAttr Body.raw Body.setAttr_raw]

theorem bodyInherit_config (ps : List Body) :
    ∀ s : Body, (s.inheritTypeProperties ps).config = s.config := by
  induction ps with
  | nil => intro s; rfl
  | cons p rest ih =>
    intro s
    simp only [Body.inheritTypeProperties]
    by_cases hp : p.mime_type ≠ s.mime_type
    · rw [if_pos hp, ih]
    · rw [if_neg hp, ih,
        fillAttrs_frame Body.getAttr Body.setAttr Body.config Body.setAttr_config]

theorem bodyInherit_errors (ps : List Body) :
    ∀ s : Body, (s.inheritTypeProperties ps).errors = s.errors := by
  induction ps with
  | nil => intro s; rfl
  | cons p rest ih =>
    intro s
    simp only [Body.inheritTypeProperties]
    by_cases hp : p.mime_type ≠ s.mime_type
    · rw [if_pos hp, ih]
    · rw [if_neg hp, ih,
        fillAttrs_frame Body.getAttr Body.setAttr Body.errors Body.setAttr_errors]

theorem bodyInherit_get_of_not_isNone (ps : List Body) :
    ∀ (s : Body) (n : BodyAttr), (s.getAttr n).isNone = false →
      (s.inheritTypeProperties ps).getAttr n = s.getAttr n := by
  induction ps with
  | nil => intro s n _; rfl
  | cons p rest ih =>
    intro s n h
    simp only [Body.inheritTypeProperties]
    by_cases hp : p.mime_type ≠ s.mime_type
    · rw [if_pos hp, ih _ n h]
    · rw [if_neg hp]
      have hfill := fillAttrs_get_of_not_isNone Body.getAttr Body.setAttr
        bodyGetAttr_setAttr p BODY_PARAMS s n h
      rw [ih _ n (by rw [hfill]; exact h), hfill]

theorem bodyInherit_get_of_isNone (ps : List Body) :
    ∀ (s : Body) (n : BodyAttr), n ∈ BODY_PARAMS → (s.getAttr n).isNone = true →
      (s.inheritTypeProperties ps).getAttr n = firstSetBody s.mime_type n ps := by
  induction ps with
  | nil =>
    intro s n _ h
    simp only [Body.inheritTypeProperties, firstSetBody]
    exact PyVal.eq_none_of_isNone _ h
  | cons p rest ih =>
    intro s n hmem h
    simp only [Body.inheritTypeProperties, firstSetBody]
    by_cases hp : p.mime_type ≠ s.mime_type
    · rw [if_pos hp, ih _ n hmem h, if_neg (fun hand => hp hand.1)]
    · have hpe : p.mime_type = s.mime_type := not_not.mp hp
      rw [if_neg hp]
      have hfill := fillAttrs_get_of_mem Body.getAttr Body.setAttr
        bodyGetAttr_setAttr p BODY_PARAMS s n hmem h
      by_cases hv : (p.getAttr n).isNone = false
      · rw [if_pos ⟨hpe, hv⟩]
        rw [bodyInherit_get_of_not_isNone rest _ n (by rw [hfill]; exact hv), hfill]
      · have hv' : (p.getAttr n).isNone = true := eq_true_of_ne_false hv
        rw [if_neg (fun hand => hv hand.2)]
        rw [ih _ n hmem (by rw [hfill]; exact hv')]
        rw [fillAttrs_frame Body.getAttr Body.setAttr Body.mime_type Body.setAttr_mime_type]

theorem charListLt_nil_right : ∀ l : List Char, charListLt l [] = false := by
  intro l
  cases l <;> rfl

theorem charListLt_self : ∀ l : List Char, charListLt l l = false := by
  intro l
  induction l with
  | nil => rfl
  | cons x xs ih => simp [charListLt, ih]

theorem charListLt_true_asymm : ∀ a b : List Char,
    charListLt a b = true → charListLt b a = false := by
  intro a
  induction a with
  | nil => intro b _; exact charListLt_nil_right b
  | cons x xs ih =>
    intro b hab
    cases b with
    | nil => simp [charListLt] at hab
    | cons y ys =>
      simp only [charListLt] at hab ⊢
      split_ifs at hab ⊢ <;> first
        | rfl
        | (exact ih ys hab)
        | omega

theorem charListLt_false_trans : ∀ a b c : List Char,
    charListLt b a = false → charListLt c b = false → charListLt c a = false := by
  intro a
  induction a with
  | nil => intro b c _ _; exact charListLt_nil_right c
  | cons x xs ih =>
    intro b c hba hcb
    cases b with
    | nil => simp [charListLt] at hba
    | cons y ys =>
      cases c with
      | nil => simp [charListLt] at hcb
      | cons z zs =>
        simp only [charListLt] at hba hcb ⊢
        split_ifs at hba hcb ⊢ <;> first
          | rfl
          | (exact ih ys zs hba hcb)
          | omega

theorem pyStrLt_self (s : String) : pyStrLt s s = false :=
  charListLt_self s.data

theorem pyStrLt_true_asymm (a b : String) (h : pyStrLt a b = true) : pyStrLt b a = false :=
  charListLt_true_asymm a.data b.data h

theorem pyStrLe_trans (a b c : String) (h1 : pyStrLe a b) (h2 : pyStrLe b c) : pyStrLe a c :=
  charListLt_false_trans a.data b.data c.data h1 h2

theorem orderedInsertResp_perm (a : Response) :
    ∀ l, (orderedInsertResp a l).Perm (a :: l) := by
  intro l
  induction l with
  | nil => exact List.Perm.refl _
  | cons b l ih =>
    simp only [orderedInsertResp]
    by_cases hlt : pyStrLt b.code a.code = true
    · rw [if_pos hlt]
      exact (List.Perm.cons b ih).trans (List.Perm.swap a b l)
    · rw [if_neg hlt]

theorem orderedInsertResp_sorted (a : Response) :
    ∀ l, List.Pairwise (fun x y => pyStrLe x.code y.code) l →
      List.Pairwise (fun x y => pyStrLe x.code y.code) (orderedInsertResp a l) := by
  intro l
  induction l with
  | nil => intro _; simp [orderedInsertResp]
  | cons b l ih =>
    intro hp
    rcases List.pairwise_cons.mp hp with ⟨hb, hl⟩
    simp only [orderedInsertResp]
    by_cases hlt : pyStrLt b.code a.code = true
    · rw [if_pos hlt]
      refine List.pairwise_cons.mpr ⟨?_, ih hl⟩
      intro x hx
      rcases List.mem_cons.mp ((orderedInsertResp_perm a l).mem_iff.mp hx) with hxa | hxl
      · subst hxa
        exact pyStrLt_true_asymm _ _ hlt
      · exact hb x hxl
    · rw [if_neg hlt]
      have hab : pyStrLe a.code b.code := Bool.eq_false_iff.mpr hlt
      refine List.pairwise_cons.mpr ⟨?_, hp⟩
      intro x hx
      rcases List.mem_cons.mp hx with hxb | hxl
      · subst hxb; exact hab
      · exact pyStrLe_trans _ _ _ hab (hb x hxl)

theorem orderedInsertResp_filter (c : String) (a : Response) :
    ∀ l, List.filter (fun r => r.code == c) (orderedInsertResp a l)
      = List.filter (fun r => r.code == c) (a :: l) := by
  intro l
  induction l with
  | nil => rfl
  | cons b l ih =>
    simp only [orderedInsertResp]
    by_cases hlt : pyStrLt b.code a.code = true
    · rw [if_pos hlt]
      by_cases hb : (b.code == c) = true
      · by_cases ha : (a.code == c) = true
        · have hbc : b.code = c := by simpa using hb
          have hac : a.code = c := by simpa using ha
          rw [hbc, hac] at hlt
          rw [pyStrLt_self c] at hlt
          cases hlt
        · simp [List.filter_cons, hb, ha, ih]
      · simp [List.filter_cons, hb, ih]
    · rw [if_neg hlt]

theorem pySortedResp_perm : ∀ l, (pySortedResp l).Perm l := by
  intro l
  induction l with
  | nil => exact List.Perm.refl _
  | cons a l ih =>
    exact (orderedInsertResp_perm a (pySortedResp l)).trans (List.Perm.cons a ih)

theorem pySortedResp_sorted : ∀ l,
    List.Pairwise (fun x y => pyStrLe x.code y.code) (pySortedResp l) := by
  intro l
  induction l with
  | nil => simp [pySortedResp]
  | cons a l ih => exact orderedInsertResp_sorted a (pySortedResp l) ih

theorem pySortedResp_filter (c : String) : ∀ l,
    List.filter (fun r => r.code == c) (pySortedResp l)
      = List.filter (fun r => r.code == c) l := by
  intro l
  induction l with
  | nil => rfl
  | cons a l ih =>
    calc List.filter (fun r => r.code == c) (orderedInsertResp a (pySortedResp l))
        = List.filter (fun r => r.code == c) (a :: pySortedResp l) :=
          orderedInsertResp_filter c a (pySortedResp l)
      _ = List.filter (fun r => r.code == c) (a :: l) := by
          simp [List.filter_cons, ih]

theorem initList_errors (cls : ParamKind) (ds : List (String × PyVal)) (config : PyVal)
    (e : List PyVal) (kw : PyVal) :
    ∀ q ∈ (BaseParameter.init_list cls ds config e kw).getD [], q.errors = e := by
  intro q hq
  simp only [BaseParameter.init_list] at hq
  by_cases he : (ds.map (fun kv => BaseParameter.init cls kv.1 kv.2 config e kw)).isEmpty = true
  · rw [if_pos he] at hq
    simp at hq
  · rw [if_neg he] at hq
    simp only [Option.getD_some] at hq
    rcases List.mem_map.mp hq with ⟨kv, _, rfl⟩
    rfl

theorem bodyList_errors (ds : List (String × PyVal)) (config : PyVal) (e : List PyVal) :
    ∀ b ∈ Body.init_list ds config e, b.errors = e := by
  intro b hb
  rcases List.mem_map.mp hb with ⟨kv, _, rfl⟩
  rfl

theorem response_init_errors (n : String) (d : PyVal) (c : PyVal) (e : List PyVal)
    (r : Response) (h : Response.init n d c e = some r) : r.errors = e := by
  simp only [Response.init] at h
  split at h
  · cases h
  · split at h
    · obtain rfl := Option.some.inj h
      rfl
    · cases h

theorem response_initAll_errors (c : PyVal) (e : List PyVal) :
    ∀ (ds : List (String × PyVal)) (l : List Response),
      Response.initAll c e ds = some l → ∀ r ∈ l, r.errors = e := by
  intro ds
  induction ds with
  | nil =>
    intro l h r hr
    obtain rfl := Option.some.inj h
    cases hr
  | cons kv rest ih =>
    intro l h r hr
    simp only [Response.initAll] at h
    split at h
    · obtain rfl := Option.some.inj h
      rename_i r0 rs0 hr0 hrest
      rcases List.mem_cons.mp hr with rfl | hmem
      · exact response_init_errors _ _ _ _ _ hr0
      · exact ih rs0 hrest r hmem
    · cases h

theorem response_initList_errors (ds : List (String × PyVal)) (c : PyVal) (e : List PyVal)
    (rs : List Response) (h : Response.init_list ds c e = some rs) :
    ∀ r ∈ rs, r.errors = e := by
  intro r hr
  simp only [Response.init_list] at h
  cases hl : Response.initAll c e ds with
  | none => rw [hl] at h; cases h
  | some l =>
    rw [hl] at h
    obtain rfl := Option.some.inj h
    exact response_initAll_errors c e ds l hl r ((pySortedResp_perm l).mem_iff.mp hr)

theorem noErrorsIn_mk (s : SecurityScheme)
    (h1 : ∀ q ∈ (s.headers.getD Option.none).getD [], q.errors = ([] : List PyVal))
    (h2 : ∀ b ∈ s.body.getD [], b.errors = ([] : List PyVal))
    (h3 : ∀ r ∈ s.responses.getD [], r.errors = ([] : List PyVal))
    (h4 : ∀ q ∈ (s.query_params.getD Option.none).getD [], q.errors = ([] : List PyVal))
    (h5 : ∀ q ∈ (s.uri_params.getD Option.none).getD [], q.errors = ([] : List PyVal))
    (h6 : ∀ q ∈ (s.form_params.getD Option.none).getD [], q.errors = ([] : List PyVal)) :
    noErrorsIn s :=
  ⟨h1, h2, h3, h4, h5, h6⟩

theorem dispatch_inv (config : PyVal) (s : SecurityScheme) (obj : String) (sd : PyVal)
    (s2 : SecurityScheme) (h : dispatchDescribedBy config s obj sd = some s2) :
    s2.errors = s.errors ∧ (noErrorsIn s → noErrorsIn s2) := by
  unfold dispatchDescribedBy at h
  by_cases h1 : obj = "headers"
  · rw [if_pos h1] at h
    cases hd : asDict sd with
    | none => rw [hd] at h; cases h
    | some ds =>
      rw [hd] at h
      obtain rfl := Option.some.inj h
      refine ⟨rfl, fun hno => ?_⟩
      rcases hno with ⟨_, n2, n3, n4, n5, n6⟩
      exact noErrorsIn_mk _ (fun q hq => initList_errors _ _ _ _ _ q hq) n2 n3 n4 n5 n6
  by_cases h2 : obj = "body"
  · rw [if_neg h1, if_pos h2] at h
    cases hd : asDict sd with
    | none => rw [hd] at h; cases h
    | some ds =>
      rw [hd] at h
      obtain rfl := Option.some.inj h
      refine ⟨rfl, fun hno => ?_⟩
      rcases hno with ⟨n1, _, n3, n4, n5, n6⟩
      exact noErrorsIn_mk _ n1 (fun b hb => bodyList_errors _ _ _ b hb) n3 n4 n5 n6
  by_cases h3 : obj = "responses"
  · rw [if_neg h1, if_neg h2, if_pos h3] at h
    cases hd : asDict sd with
    | none => rw [hd] at h; cases h
    | some ds =>
      rw [hd] at h
      simp only [Option.some_bind] at h
      cases hr : Response.init_list ds config [] with
      | none => rw [hr] at h; cases h
      | some rs =>
        rw [hr] at h
        obtain rfl := Option.some.inj h
        refine ⟨rfl, fun hno => ?_⟩
        rcases hno with ⟨n1, n2, _, n4, n5, n6⟩
        exact noErrorsIn_mk _ n1 n2 (fun r hrr => response_initList_errors ds config [] rs hr r hrr) n4 n5 n6
  by_cases h4 : obj = "queryParameters"
  · rw [if_neg h1, if_neg h2, if_neg h3, if_pos h4] at h
    cases hd : asDict sd with
    | none => rw [hd] at h; cases h
    | some ds =>
      rw [hd] at h
      obtain rfl := Option.some.inj h
      refine ⟨rfl, fun hno => ?_⟩
      rcases hno with ⟨n1, n2, n3, _, n5, n6⟩
      exact noErrorsIn_mk _ n1 n2 n3 (fun q hq => initList_errors _ _ _ _ _ q hq) n5 n6
  by_cases h5 : obj = "uriParameters"
  · rw [if_neg h1, if_neg h2, if_neg h3, if_neg h4, if_pos h5] at h
    cases hd : asDict sd with
    | none => rw [hd] at h; cases h
    | some ds =>
      rw [hd] at h
      obtain rfl := Option.some.inj h
      refine ⟨rfl, fun hno => ?_⟩
      rcases hno with ⟨n1, n2, n3, n4, _, n6⟩
      exact noErrorsIn_mk _ n1 n2 n3 n4 (fun q hq => initList_errors _ _ _ _ _ q hq) n6
  by_cases h6 : obj = "formParameters"
  · rw [if_neg h1, if_neg h2, if_neg h3, if_neg h4, if_neg h5, if_pos h6] at h
    cases hd : asDict sd with
    | none => rw [hd] at h; cases h
    | some ds =>
      rw [hd] at h
      obtain rfl := Option.some.inj h
      refine ⟨rfl, fun hno => ?_⟩
      rcases hno with ⟨n1, n2, n3, n4, n5, _⟩
      exact noErrorsIn_mk _ n1 n2 n3 n4 n5 (fun q hq => initList_errors _ _ _ _ _ q hq)
  by_cases h7 : obj = "documentation"
  · rw [if_neg h1, if_neg h2, if_neg h3, if_neg h4, if_neg h5, if_neg h6, if_pos h7] at h
    cases hl : asList sd with
    | none => rw [hl] at h; cases h
    | some items =>
      rw [hl] at h
      simp only [Option.some_bind] at h
      cases hdoc : docsOf items with
      | none => rw [hdoc] at h; cases h
      | some docs =>
        rw [hdoc] at h
        obtain rfl := Option.some.inj h
        exact ⟨rfl, fun hno => hno⟩
  by_cases h8 : obj = "usage"
  · rw [if_neg h1, if_neg h2, if_neg h3, if_neg h4, if_neg h5, if_neg h6, if_neg h7, if_pos h8] at h
    obtain rfl := Option.some.inj h
    exact ⟨rfl, fun hno => hno⟩
  by_cases h9 : obj = "mediaType"
  · rw [if_neg h1, if_neg h2, if_neg h3, if_neg h4, if_neg h5, if_neg h6, if_neg h7, if_neg h8, if_pos h9] at h
    obtain rfl := Option.some.inj h
    exact ⟨rfl, fun hno => hno⟩
  by_cases h10 : obj = "protocols"
  · rw [if_neg h1, if_neg h2, if_neg h3, if_neg h4, if_neg h5, if_neg h6, if_neg h7, if_neg h8, if_neg h9, if_pos h10] at h
    obtain rfl := Option.some.inj h
    exact ⟨rfl, fun hno => hno⟩
  rw [if_neg h1, if_neg h2, if_neg h3, if_neg h4, if_neg h5, if_neg h6, if_neg h7, if_neg h8, if_neg h9, if_neg h10] at h
  obtain rfl := Option.some.inj h
  exact ⟨rfl, fun hno => hno⟩

theorem foldDispatch_inv (config : PyVal) :
    ∀ (entries : List (String × PyVal)) (s s2 : SecurityScheme),
      foldDispatch config s entries = some s2 →
      s2.errors = s.errors ∧ (noErrorsIn s → noErrorsIn s2) := by
  intro entries
  induction entries with
  | nil =>
    intro s s2 h
    obtain rfl := Option.some.inj h
    exact ⟨rfl, fun hno => hno⟩
  | cons e rest ih =>
    intro s s2 h
    obtain ⟨obj, sd⟩ := e
    simp only [foldDispatch] at h
    cases hm : dispatchDescribedBy config s obj sd with
    | none => rw [hm] at h; cases h
    | some mid =>
      rw [hm] at h
      simp only [Option.some_bind] at h
      rcases dispatch_inv config s obj sd mid hm with ⟨he1, hn1⟩
      rcases ih mid s2 h with ⟨he2, hn2⟩
      exact ⟨he2.trans he1, fun hno => hn2 (hn1 hno)⟩

theorem fromScheme_inv (rc : PyVal) (re : List PyVal) (s : PyVal) (o : SecurityScheme)
    (h : SecurityScheme.fromScheme rc re s = some o) :
    o.errors = re ∧ noErrorsIn o := by
  cases s with
  | dict xs =>
    cases xs with
    | nil => cases h
    | cons kv rest =>
      obtain ⟨name, data⟩ := kv
      simp only [SecurityScheme.fromScheme] at h
      cases hd : asDict data with
      | none => rw [hd] at h; cases h
      | some d =>
        rw [hd] at h
        simp only [Option.some_bind] at h
        cases he : asDict ((pyFind d "describedBy").getD (PyVal.dict [])) with
        | none => rw [he] at h; cases h
        | some entries =>
          rw [he] at h
          simp only [Option.some_bind] at h
          have hbase := foldDispatch_inv rc entries _ o h
          refine ⟨hbase.1, hbase.2 ?_⟩
          exact noErrorsIn_mk _ (by simp) (by simp) (by simp) (by simp) (by simp) (by simp)
  | none => cases h
  | bool b => cases h
  | int n => cases h
  | str t => cases h
  | list l => cases h

theorem schemesOf_inv (rc : PyVal) (re : List PyVal) :
    ∀ (ss : List PyVal) (l : List SecurityScheme),
      schemesOf rc re ss = some l → ∀ o ∈ l, o.errors = re ∧ noErrorsIn o := by
  intro ss
  induction ss with
  | nil =>
    intro l h o ho
    obtain rfl := Option.some.inj h
    cases ho
  | cons s rest ih =>
    intro l h o ho
    simp only [schemesOf] at h
    split at h
    · obtain rfl := Option.some.inj h
      rename_i o0 os0 ho0 hrest
      rcases List.mem_cons.mp ho with rfl | hmem
      · exact fromScheme_inv rc re s o ho0
      · exact ih os0 hrest o hmem
    · cases h

theorem from_file_inv (raml : List (String × PyVal)) (rc : PyVal) (re : List PyVal)
    (objs : List SecurityScheme)
    (h : SecurityScheme.from_file raml rc re = some (some objs)) :
    ∀ o ∈ objs, o.errors = re ∧ noErrorsIn o := by
  intro o ho
  simp only [SecurityScheme.from_file] at h
  split at h
  · rename_i ss hss
    cases hl : schemesOf rc re ss with
    | none => rw [hl] at h; cases h
    | some l =>
      rw [hl] at h
      simp only [Option.map_some'] at h
      obtain hinner := Option.some.inj h
      by_cases hemp : l.isEmpty = true
      · rw [if_pos hemp] at hinner; cases hinner
      · rw [if_neg hemp] at hinner
        obtain rfl := Option.some.inj hinner
        exact schemesOf_inv rc re ss l hl o ho
  · cases h

theorem _get_default (data : PyVal) (item : String) (d : PyVal)
    (h : hasKey data item = false) : BaseParameter._get data item d = d := by
  cases data with
  | dict xs =>
    simp only [hasKey] at h
    simp only [BaseParameter._get]
    rw [Option.not_isSome_iff_eq_none.mp (by simp [h] : ¬(pyFind xs item).isSome = true)]
    rfl
  | none => rfl
  | bool b => rfl
  | int n => rfl
  | str s => rfl
  | list xs => rfl

/-! The claim theorems.  Each claim of the specification is settled by exactly
one theorem below, with a closed witness where the theorem has hypotheses. -/

/-- C1: the inheritance merge never overwrites a locally set value — for every
record, ordered ancestor list and inheritable attribute, if the record's value
for the attribute is not the unset sentinel (`None`) before
`_inherit_type_properties` runs, it is identical afterwards.  Stated for the
`BaseParameter`, `Header` and `Body` variants of the merge. -/
theorem merge_never_overwrites :
    (∀ (r : BaseParameter) (ancestors : List BaseParameter) (n : AttrName),
        n ∈ NAMED_PARAMS → (r.getAttr n).isNone = false →
        (r.inheritTypeProperties ancestors).getAttr n = r.getAttr n)
    ∧ (∀ (r : BaseParameter) (ancestors : List BaseParameter) (n : AttrName),
        n ∈ NAMED_PARAMS → (r.getAttr n).isNone = false →
        (Header.inheritTypeProperties r ancestors).getAttr n = r.getAttr n)
    ∧ (∀ (r : Body) (ancestors : List Body) (n : BodyAttr),
        (r.getAttr n).isNone = false →
        (r.inheritTypeProperties ancestors).getAttr n = r.getAttr n) := by
  refine ⟨?_, ?_, ?_⟩
  · intro r A n _ h
    exact inheritTypeProperties_get_of_not_isNone A r n h
  · intro r A n _ h
    exact headerInherit_get_of_not_isNone A r n h
  · intro r A n h
    exact bodyInherit_get_of_not_isNone A r n h

/-- C1 witness: concrete locally-set attributes survive all three merges. -/
theorem merge_never_overwrites_witness :
    ((({ mkParam "p" with type := PyVal.str "date" }).inheritTypeProperties
        [{ mkParam "p" with type := PyVal.str "integer" }]).getAttr AttrName.type
      = ({ mkParam "p" with type := PyVal.str "date" }).getAttr AttrName.type)
    ∧ ((Header.inheritTypeProperties { mkParam "h" with desc := PyVal.str "local" }
        [{ mkParam "other" with desc := PyVal.str "inherited" }]).getAttr AttrName.desc
      = ({ mkParam "h" with desc := PyVal.str "local" }).getAttr AttrName.desc)
    ∧ ((({ mkBody "application/json" with schema := PyVal.str "local" }).inheritTypeProperties
        [{ mkBody "application/json" with schema := PyVal.str "inherited" }]).getAttr BodyAttr.schema
      = ({ mkBody "application/json" with schema := PyVal.str "local" }).getAttr BodyAttr.schema) :=
  ⟨merge_never_overwrites.1 _ _ _ (by decide) rfl,
   merge_never_overwrites.2.1 _ _ _ (by decide) rfl,
   merge_never_overwrites.2.2 _ _ _ rfl⟩

/-- C2: the merge fills each unset attribute independently from the nearest
ancestor that matches by name and has the attribute set (`firstSetNamed`);
with no such ancestor the attribute stays unset.  In particular a record with
unset `type` and ancestors `[a1, a2]`, where only `a2` matches by name and has
`type == "integer"`, ends with `type == "integer"`. -/
theorem merge_fills_from_nearest :
    (∀ (r : BaseParameter) (ancestors : List BaseParameter) (n : AttrName),
        n ∈ NAMED_PARAMS → (r.getAttr n).isNone = true →
        (r.inheritTypeProperties ancestors).getAttr n = firstSetNamed r.name n ancestors)
    ∧ (∀ r a1 a2 : BaseParameter,
        r.type = PyVal.none → a1.name ≠ r.name → a2.name = r.name →
        a2.type = PyVal.str "integer" →
        (r.inheritTypeProperties [a1, a2]).type = PyVal.str "integer") := by
  constructor
  · intro r A n hmem h
    exact inheritTypeProperties_get_of_isNone A r n hmem h
  · intro r a1 a2 hr h1 h2 h3
    have hiso : (r.getAttr AttrName.type).isNone = true := by
      simp [BaseParameter.getAttr, hr, PyVal.isNone]
    have h := inheritTypeProperties_get_of_isNone [a1, a2] r AttrName.type (by decide) hiso
    show (r.inheritTypeProperties [a1, a2]).getAttr AttrName.type = PyVal.str "integer"
    rw [h]
    simp [firstSetNamed, BaseParameter.getAttr, h1, h2, h3, PyVal.isNone]

/-- C2 witness: the spec's concrete two-ancestor scenario. -/
theorem merge_fills_from_nearest_witness :
    ((mkParam "p").inheritTypeProperties
      [{ mkParam "q" with type := PyVal.str "number" },
       { mkParam "p" with type := PyVal.str "integer" }]).type = PyVal.str "integer" :=
  merge_fills_from_nearest.2 (mkParam "p")
    { mkParam "q" with type := PyVal.str "number" }
    { mkParam "p" with type := PyVal.str "integer" }
    rfl (by simp [mkParam]) rfl rfl

/-- C3: the identity-match rule differs by entity kind.  (i) The
named-parameter merge skips any single ancestor whose name differs.  (ii) The
header merge has no name filter — an unset attribute (including `method`, on
top of the common `NAMED_PARAMS`) is filled from the first ancestor in the
list that has it set, regardless of names (`firstSet`).  (iii) The body merge
consults only ancestors whose `mime_type` matches (`firstSetBody`), for
exactly the attributes `schema`, `example`, `form_params` (`BODY_PARAMS`),
and touches nothing else of the record. -/
theorem identity_match_rule_by_kind :
    (∀ (r p : BaseParameter) (n : AttrName), p.name ≠ r.name →
        (r.inheritTypeProperties [p]).getAttr n = r.getAttr n)
    ∧ (∀ (r : BaseParameter) (ancestors : List BaseParameter) (n : AttrName),
        n ∈ NAMED_PARAMS ++ [AttrName.method] → (r.getAttr n).isNone = true →
        (Header.inheritTypeProperties r ancestors).getAttr n = firstSet n ancestors)
    ∧ (∀ (r : Body) (ancestors : List Body) (n : BodyAttr),
        n ∈ BODY_PARAMS → (r.getAttr n).isNone = true →
        (r.inheritTypeProperties ancestors).getAttr n = firstSetBody r.mime_type n ancestors)
    ∧ (∀ (r : Body) (ancestors : List Body),
        (r.inheritTypeProperties ancestors).mime_type = r.mime_type
        ∧ (r.inheritTypeProperties ancestors).raw = r.raw
        ∧ (r.inheritTypeProperties ancestors).config = r.config
        ∧ (r.inheritTypeProperties ancestors).errors = r.errors) := by
  refine ⟨?_, ?_, ?_, ?_⟩
  · intro r p n hp
    simp [BaseParameter.inheritTypeProperties, hp]
  · intro r A n hmem h
    exact headerInherit_get_of_isNone A r n hmem h
  · intro r A n hmem h
    exact bodyInherit_get_of_isNone A r n hmem h
  · intro r A
    exact ⟨bodyInherit_mime_type A r, bodyInherit_raw A r,
      bodyInherit_config A r, bodyInherit_errors A r⟩

/-- C3 witness: a differently-named ancestor is skipped by the
named-parameter merge, consulted by the header merge (which also fills
`method`), and a body ancestor is consulted only on a MIME-type match. -/
theorem identity_match_rule_by_kind_witness :
    (((mkParam "p").inheritTypeProperties
        [{ mkParam "other" with type := PyVal.str "integer" }]).getAttr AttrName.type
      = (mkParam "p").getAttr AttrName.type)
    ∧ ((Header.inheritTypeProperties (mkParam "p")
        [{ mkParam "other" with method := PyVal.str "get" }]).getAttr AttrName.method
      = firstSet AttrName.method [{ mkParam "other" with method := PyVal.str "get" }])
    ∧ (((mkBody "application/json").inheritTypeProperties
        [{ mkBody "text/xml" with schema := PyVal.str "s" }]).getAttr BodyAttr.schema
      = firstSetBody "application/json" BodyAttr.schema
          [{ mkBody "text/xml" with schema := PyVal.str "s" }]) :=
  ⟨identity_match_rule_by_kind.1 (mkParam "p") _ AttrName.type (by simp [mkParam]),
   identity_match_rule_by_kind.2.1 (mkParam "p") _ AttrName.method (by decide) rfl,
   identity_match_rule_by_kind.2.2.1 (mkBody "application/json") _ BodyAttr.schema (by decide) rfl⟩

/-- C4: required-ness defaulting is asymmetric per kind — a declaration with
no explicit `required` field yields `required == True` exactly for
`URIParameter` and `required == False` for every other kind. -/
theorem required_default_by_kind (cls : ParamKind) (name : String) (data : PyVal)
    (config : PyVal) (errors : List PyVal) (kwargs : PyVal)
    (h : hasKey data "required" = false) :
    (BaseParameter.init cls name data config errors kwargs).required
      = if cls = ParamKind.URIParameter then PyVal.bool true else PyVal.bool false := by
  have hg : ∀ d : PyVal, BaseParameter._get data "required" d = d :=
    fun d => _get_default data "required" d h
  by_cases hc : cls = ParamKind.URIParameter
  · simp [BaseParameter.init, hc, hg]
  · simp [BaseParameter.init, hc, hg]

/-- C4 witness: a `None` URI-parameter declaration defaults to required,
an empty header declaration does not. -/
theorem required_default_by_kind_witness :
    ((BaseParameter.init ParamKind.URIParameter "id" PyVal.none (PyVal.dict []) [] PyVal.none).required
      = if ParamKind.URIParameter = ParamKind.URIParameter then PyVal.bool true else PyVal.bool false)
    ∧ ((BaseParameter.init ParamKind.Header "x" (PyVal.dict []) (PyVal.dict []) [] PyVal.none).required
      = if ParamKind.Header = ParamKind.URIParameter then PyVal.bool true else PyVal.bool false) :=
  ⟨required_default_by_kind ParamKind.URIParameter "id" PyVal.none (PyVal.dict []) [] PyVal.none rfl,
   required_default_by_kind ParamKind.Header "x" (PyVal.dict []) (PyVal.dict []) [] PyVal.none rfl⟩

/-- C5 counterexample: the claim that every list builder yields `None` on an
empty mapping is false — `Body.init_list` returns the empty list itself and
`Response.init_list` returns the (empty) sorted list, never `None`. -/
theorem list_builder_empty_counterexample :
    Body.init_list [] (PyVal.dict []) [] = ([] : List Body)
    ∧ Response.init_list [] (PyVal.dict []) [] = some ([] : List Response) :=
  ⟨rfl, rfl⟩

/-- C5 amended: only `BaseParameter.init_list` (hence the parameter and
header builders) maps an empty mapping to `None`; `Body.init_list` returns
the empty list and `Response.init_list` returns the empty (sorted) list —
its `Option` layer only models a propagated exception, never Python `None`. -/
theorem list_builder_empty_amended :
    (∀ (cls : ParamKind) (config : PyVal) (errors : List PyVal) (kwargs : PyVal),
        BaseParameter.init_list cls [] config errors kwargs = Option.none)
    ∧ (∀ (config : PyVal) (errors : List PyVal),
        Body.init_list [] config errors = ([] : List Body))
    ∧ (∀ (config : PyVal) (errors : List PyVal),
        Response.init_list [] config errors = some ([] : List Response)) :=
  ⟨fun _ _ _ _ => rfl, fun _ _ => rfl, fun _ _ => rfl⟩

/-- C6: `Response.init_list` returns the normalized responses re-sorted
ascending by status code (`pyStrLe` on the code keys), as a stable
permutation of declaration order — responses with equal codes keep their
relative order (the filter clause).  In particular the codes
`{"404", "200", "500"}` come back ordered `[200, 404, 500]`. -/
theorem response_init_list_sorted :
    (∀ (data : List (String × PyVal)) (config : PyVal) (errors : List PyVal)
        (rs : List Response), Response.initAll config errors data = some rs →
        ∃ l, Response.init_list data config errors = some l
          ∧ l.Perm rs
          ∧ List.Pairwise (fun x y => pyStrLe x.code y.code) l
          ∧ ∀ c, l.filter (fun r => r.code == c) = rs.filter (fun r => r.code == c))
    ∧ (Response.init_list
        [("404", PyVal.dict []), ("200", PyVal.dict []), ("500", PyVal.dict [])]
        (PyVal.dict []) []).map (fun l => l.map Response.code)
      = some ["200", "404", "500"] := by
  constructor
  · intro data config errors rs h
    refine ⟨pySortedResp rs, ?_, pySortedResp_perm rs, pySortedResp_sorted rs,
      fun c => pySortedResp_filter c rs⟩
    simp [Response.init_list, h]
  · rfl

/-- C6 witness: the sortedness statement instantiated on a concrete
two-response mapping. -/
theorem response_init_list_sorted_witness :
    ∃ l, Response.init_list [("404", PyVal.dict []), ("200", PyVal.dict [])]
        (PyVal.dict []) [] = some l
      ∧ l.Perm ((Response.initAll (PyVal.dict []) []
          [("404", PyVal.dict []), ("200", PyVal.dict [])]).getD [])
      ∧ List.Pairwise (fun x y => pyStrLe x.code y.code) l
      ∧ ∀ c, l.filter (fun r => r.code == c)
          = ((Response.initAll (PyVal.dict []) []
              [("404", PyVal.dict []), ("200", PyVal.dict [])]).getD []).filter
              (fun r => r.code == c) :=
  response_init_list_sorted.1 _ _ _ _ rfl

/-- C7: normalization preserves the raw declaration exactly — `init` stores
`{name: declaration}` for named-parameter kinds and the declaration mapping
itself for `Body` and `Response`. -/
theorem raw_round_trip :
    (∀ (cls : ParamKind) (name : String) (data config : PyVal) (errors : List PyVal)
        (kwargs : PyVal),
        (BaseParameter.init cls name data config errors kwargs).raw
          = PyVal.dict [(name, data)])
    ∧ (∀ (name : String) (data config : PyVal) (errors : List PyVal),
        (Body.init name data config errors).raw = data)
    ∧ (∀ (name : String) (data config : PyVal) (errors : List PyVal) (r : Response),
        Response.init name data config errors = some r → r.raw = data) := by
  refine ⟨fun _ _ _ _ _ _ => rfl, fun _ _ _ _ => rfl, ?_⟩
  intro name data config errors r h
  simp only [Response.init] at h
  split at h
  · cases h
  · split at h
    · obtain rfl := Option.some.inj h
      rfl
    · cases h

/-- C7 witness: the `Response.init` clause instantiated on a concrete
declaration. -/
theorem raw_round_trip_witness :
    ((Response.init "200" (PyVal.dict [("description", PyVal.str "ok")])
        (PyVal.dict []) []).getD dummyResponse).raw
      = PyVal.dict [("description", PyVal.str "ok")] :=
  raw_round_trip.2.2 "200" (PyVal.dict [("description", PyVal.str "ok")])
    (PyVal.dict []) [] _ rfl

/-- C8 counterexample: `Response.init` does NOT pass its own errors
collection to the nested `Header.init_list` call — at a concrete input with
errors collection `["doc-error"]`, the nested header record carries the
default empty collection, which differs from the one passed in. -/
theorem errors_not_threaded_counterexample :
    ((((Response.init "200" (PyVal.dict [("headers", PyVal.dict [("X-t", PyVal.none)])])
        (PyVal.dict []) [PyVal.str "doc-error"]).getD dummyResponse).headers.getD []).map
        BaseParameter.errors = [([] : List PyVal)])
    ∧ (((Response.init "200" (PyVal.dict [("headers", PyVal.dict [("X-t", PyVal.none)])])
        (PyVal.dict []) [PyVal.str "doc-error"]).getD dummyResponse).errors
      = [PyVal.str "doc-error"])
    ∧ ([] : List PyVal) ≠ [PyVal.str "doc-error"] :=
  ⟨rfl, rfl, by simp⟩

/-- C8 amended: the errors collection is NOT threaded through nested
normalization — `Response.init` keeps the caller's collection on the
response record itself but calls `Header.init_list`/`Body.init_list` with
only `config`, so every nested record carries the default empty collection;
likewise `SecurityScheme.from_file` stores `root.errors` on each scheme
record but dispatches every `init_list` with `root.config` only, so every
record attached under `described_by` carries the default empty collection. -/
theorem errors_not_threaded :
    (∀ (name : String) (data config : PyVal) (errors : List PyVal) (r : Response),
        Response.init name data config errors = some r →
        r.errors = errors
        ∧ (∀ q ∈ r.headers.getD [], q.errors = ([] : List PyVal))
        ∧ (∀ b ∈ r.body, b.errors = ([] : List PyVal)))
    ∧ (∀ (raml : List (String × PyVal)) (config : PyVal) (errors : List PyVal)
        (objs : List SecurityScheme),
        SecurityScheme.from_file raml config errors = some (some objs) →
        ∀ o ∈ objs, o.errors = errors ∧ noErrorsIn o) := by
  constructor
  · intro name data config errors r h
    simp only [Response.init] at h
    split at h
    · cases h
    · split at h
      · obtain rfl := Option.some.inj h
        refine ⟨rfl, ?_, ?_⟩
        · intro q hq
          exact initList_errors _ _ _ _ _ q hq
        · intro b hb
          exact bodyList_errors _ _ _ b hb
      · cases h
  · intro raml config errors objs h o ho
    exact from_file_inv raml config errors objs h o ho

/-- C8 witness: the amended statement instantiated on a concrete response
declaration and a concrete one-scheme document. -/
theorem errors_not_threaded_witness :
    ((((Response.init "200" (PyVal.dict [("headers", PyVal.dict [("X-t", PyVal.none)])])
        (PyVal.dict []) [PyVal.str "doc-error"]).getD dummyResponse).errors
        = [PyVal.str "doc-error"])
      ∧ (∀ q ∈ ((Response.init "200" (PyVal.dict [("headers", PyVal.dict [("X-t", PyVal.none)])])
          (PyVal.dict []) [PyVal.str "doc-error"]).getD dummyResponse).headers.getD [],
          q.errors = ([] : List PyVal))
      ∧ (∀ b ∈ ((Response.init "200" (PyVal.dict [("headers", PyVal.dict [("X-t", PyVal.none)])])
          (PyVal.dict []) [PyVal.str "doc-error"]).getD dummyResponse).body,
          b.errors = ([] : List PyVal)))
    ∧ (∀ o ∈ ((SecurityScheme.from_file sampleRaml (PyVal.dict [])
        [PyVal.str "root-error"]).getD Option.none).getD [],
        o.errors = [PyVal.str "root-error"] ∧ noErrorsIn o) :=
  ⟨errors_not_threaded.1 "200" (PyVal.dict [("headers", PyVal.dict [("X-t", PyVal.none)])])
      (PyVal.dict []) [PyVal.str "doc-error"] _ rfl,
   errors_not_threaded.2 sampleRaml (PyVal.dict []) [PyVal.str "root-error"] _ rfl⟩

/-- C9: normalization tolerates a missing or `None` declaration — `_get`
returns the caller-supplied default whenever the data is `None` (or any
non-mapping, where Python's `AttributeError` is caught) or lacks the key, so
`init` on a `None` or empty declaration produces a record with every
kind-appropriate default: `type == "string"`, `repeat == False`,
`display_name == name`, the kind's `required` default, and every optional
constraint field unset. -/
theorem get_tolerates_missing :
    (∀ (data : PyVal) (item : String) (d : PyVal),
        data = PyVal.none ∨ hasKey data item = false →
        BaseParameter._get data item d = d)
    ∧ (∀ (cls : ParamKind) (name : String) (config : PyVal) (errors : List PyVal)
        (kwargs : PyVal) (data : PyVal),
        data = PyVal.none ∨ data = PyVal.dict [] →
        (BaseParameter.init cls name data config errors kwargs).type = PyVal.str "string"
        ∧ (BaseParameter.init cls name data config errors kwargs).repeat_ = PyVal.bool false
        ∧ (BaseParameter.init cls name data config errors kwargs).display_name
            = PyVal.str name
        ∧ (BaseParameter.init cls name data config errors kwargs).required
            = (if cls = ParamKind.URIParameter then PyVal.bool true else PyVal.bool false)
        ∧ (BaseParameter.init cls name data config errors kwargs).desc = PyVal.none
        ∧ (BaseParameter.init cls name data config errors kwargs).min_length = PyVal.none
        ∧ (BaseParameter.init cls name data config errors kwargs).max_length = PyVal.none
        ∧ (BaseParameter.init cls name data config errors kwargs).minimum = PyVal.none
        ∧ (BaseParameter.init cls name data config errors kwargs).maximum = PyVal.none
        ∧ (BaseParameter.init cls name data config errors kwargs).example_ = PyVal.none
        ∧ (BaseParameter.init cls name data config errors kwargs).default_ = PyVal.none
        ∧ (BaseParameter.init cls name data config errors kwargs).pattern = PyVal.none
        ∧ (BaseParameter.init cls name data config errors kwargs).enum = PyVal.none) := by
  constructor
  · intro data item d h
    rcases h with rfl | hk
    · rfl
    · exact _get_default data item d hk
  · intro cls name config errors kwargs data h
    have hreq : (BaseParameter.init cls name data config errors kwargs).required
        = (if cls = ParamKind.URIParameter then PyVal.bool true else PyVal.bool false) := by
      rcases h with rfl | rfl <;> by_cases hc : cls = ParamKind.URIParameter <;>
        simp [BaseParameter.init, BaseParameter._get, hc, pyFind]
    rcases h with rfl | rfl <;>
      exact ⟨rfl, rfl, rfl, hreq, rfl, rfl, rfl, rfl, rfl, rfl, rfl, rfl, rfl⟩

/-- C9 witness: the tolerance statement instantiated at a `None` declaration
and at an empty mapping. -/
theorem get_tolerates_missing_witness :
    (BaseParameter._get PyVal.none "type" (PyVal.str "string") = PyVal.str "string")
    ∧ ((BaseParameter.init ParamKind.QueryParameter "q" (PyVal.dict [])
        (PyVal.dict []) [] PyVal.none).type = PyVal.str "string"
      ∧ (BaseParameter.init ParamKind.QueryParameter "q" (PyVal.dict [])
        (PyVal.dict []) [] PyVal.none).repeat_ = PyVal.bool false
      ∧ (BaseParameter.init ParamKind.QueryParameter "q" (PyVal.dict [])
        (PyVal.dict []) [] PyVal.none).display_name = PyVal.str "q"
      ∧ (BaseParameter.init ParamKind.QueryParameter "q" (PyVal.dict [])
        (PyVal.dict []) [] PyVal.none).required
          = (if ParamKind.QueryParameter = ParamKind.URIParameter then PyVal.bool true
             else PyVal.bool false)
      ∧ (BaseParameter.init ParamKind.QueryParameter "q" (PyVal.dict [])
        (PyVal.dict []) [] PyVal.none).desc = PyVal.none
      ∧ (BaseParameter.init ParamKind.QueryParameter "q" (PyVal.dict [])
        (PyVal.dict []) [] PyVal.none).min_length = PyVal.none
      ∧ (BaseParameter.init ParamKind.QueryParameter "q" (PyVal.dict [])
        (PyVal.dict []) [] PyVal.none).max_length = PyVal.none
      ∧ (BaseParameter.init ParamKind.QueryParameter "q" (PyVal.dict [])
        (PyVal.dict []) [] PyVal.none).minimum = PyVal.none
      ∧ (BaseParameter.init ParamKind.QueryParameter "q" (PyVal.dict [])
        (PyVal.dict []) [] PyVal.none).maximum = PyVal.none
      ∧ (BaseParameter.init ParamKind.QueryParameter "q" (PyVal.dict [])
        (PyVal.dict []) [] PyVal.none).example_ = PyVal.none
      ∧ (BaseParameter.init ParamKind.QueryParameter "q" (PyVal.dict [])
        (PyVal.dict []) [] PyVal.none).default_ = PyVal.none
      ∧ (BaseParameter.init ParamKind.QueryParameter "q" (PyVal.dict [])
        (PyVal.dict []) [] PyVal.none).pattern = PyVal.none
      ∧ (BaseParameter.init ParamKind.QueryParameter "q" (PyVal.dict [])
        (PyVal.dict []) [] PyVal.none).enum = PyVal.none) :=
  ⟨get_tolerates_missing.1 PyVal.none "type" (PyVal.str "string") (Or.inl rfl),
   get_tolerates_missing.2 ParamKind.QueryParameter "q" (PyVal.dict []) [] PyVal.none
     (PyVal.dict []) (Or.inr rfl)⟩

/-- C10: the description accessor collapses empty text to absence — for
parameter (and header), response and security-scheme records alike, the
`description` property is `None` when the stored `desc` is `None`, the empty
string, or any other falsy value, and otherwise wraps the declared text in a
`Content` whose `raw` is exactly that text. -/
theorem description_collapses_falsy :
    (∀ p : BaseParameter,
        (p.desc = PyVal.none → p.description = Option.none)
        ∧ (p.desc = PyVal.str "" → p.description = Option.none)
        ∧ (PyVal.truthy p.desc = false → p.description = Option.none)
        ∧ (PyVal.truthy p.desc = true →
            p.description = some { data := p.desc }
            ∧ (Content.mk p.desc).raw = p.desc))
    ∧ (∀ r : Response,
        (r.desc = PyVal.none → r.description = Option.none)
        ∧ (r.desc = PyVal.str "" → r.description = Option.none)
        ∧ (PyVal.truthy r.desc = false → r.description = Option.none)
        ∧ (PyVal.truthy r.desc = true →
            r.description = some { data := r.desc }
            ∧ (Content.mk r.desc).raw = r.desc))
    ∧ (∀ s : SecurityScheme,
        (s.desc = PyVal.none → s.description = Option.none)
        ∧ (s.desc = PyVal.str "" → s.description = Option.none)
        ∧ (PyVal.truthy s.desc = false → s.description = Option.none)
        ∧ (PyVal.truthy s.desc = true →
            s.description = some { data := s.desc }
            ∧ (Content.mk s.desc).raw = s.desc)) := by
  refine ⟨?_, ?_, ?_⟩
  · intro p
    refine ⟨?_, ?_, ?_, ?_⟩
    · intro h; simp [BaseParameter.description, h, PyVal.truthy]
    · intro h; simp [BaseParameter.description, h, PyVal.truthy]
    · intro h; simp [BaseParameter.description, h]
    · intro h; exact ⟨by simp [BaseParameter.description, h], rfl⟩
  · intro r
    refine ⟨?_, ?_, ?_, ?_⟩
    · intro h; simp [Response.description, h, PyVal.truthy]
    · intro h; simp [Response.description, h, PyVal.truthy]
    · intro h; simp [Response.description, h]
    · intro h; exact ⟨by simp [Response.description, h], rfl⟩
  · intro s
    refine ⟨?_, ?_, ?_, ?_⟩
    · intro h; simp [SecurityScheme.description, h, PyVal.truthy]
    · intro h; simp [SecurityScheme.description, h, PyVal.truthy]
    · intro h; simp [SecurityScheme.description, h]
    · intro h; exact ⟨by simp [SecurityScheme.description, h], rfl⟩

/-- C10 witness: a parameter with the empty-string description yields `None`;
one with non-empty text yields a `Content` carrying that exact text. -/
theorem description_collapses_falsy_witness :
    (({ mkParam "p" with desc := PyVal.str "" } : BaseParameter).description = Option.none)
    ∧ (({ mkParam "p" with desc := PyVal.str "hi" } : BaseParameter).description
        = some { data := ({ mkParam "p" with desc := PyVal.str "hi" } : BaseParameter).desc }
      ∧ (Content.mk ({ mkParam "p" with desc := PyVal.str "hi" } : BaseParameter).desc).raw
        = ({ mkParam "p" with desc := PyVal.str "hi" } : BaseParameter).desc) :=
  ⟨(description_collapses_falsy.1 _).2.1 rfl,
   (description_collapses_falsy.1 _).2.2.2 rfl⟩
